import Mathlib

/-!
Shallow embedding of the tabular-data validation engine
(`src/data_validator.py`, `src/validation_result.py`) and proofs of the
specification claims about it.

Modelling conventions:
* a cell of the loaded table is `Option Value`: `none` is the table's
  null/absent marker (Python `None` / pandas `NaN`), `some v` a concrete
  int / float / string / boolean value.  Finite Python floats are
  modelled as rationals (every finite IEEE double is a rational, and
  `float.is_integer` is exactly "denominator = 1"); the NaN used by
  pandas as the missing marker is covered by `none`.
* machine integers do not overflow in CPython, so `Int` models them
  directly.
* `DataFrame` is the loaded table: named columns in order, each an
  ordered list of cells.  pandas coerces an integer column containing a
  null to float64; this coercion is invisible to every operation of the
  engine modelled here (an integral float and an integer behave
  identically under the type predicate, stringification-emptiness and
  null detection), so example tables use whichever variant is closest to
  the pandas in-memory form.
-/

namespace DataValidation

/-- Whitespace as stripped by Python's `str.strip()` / numeric-literal
parsing (ASCII subset; the engine's inputs are ordinary cell text). -/
def pyIsSpace (c : Char) : Bool :=
  c = ' ' || c = '\t' || c = '\n' || c = '\r' || c = '\x0b' || c = '\x0c'

/-- Model of Python `str.strip()`: drop leading and trailing whitespace. -/
def pyStrip (s : String) : String :=
  String.mk (((s.toList.dropWhile pyIsSpace).reverse.dropWhile pyIsSpace).reverse)

/-- Tail of a CPython digit group: after an initial digit, digits may
follow freely and single underscores must sit between two digits. -/
def digitsTail : List Char → Bool
  | [] => true
  | '_' :: cs =>
    match cs with
    | [] => false
    | c :: _ => c.isDigit && digitsTail cs
  | c :: cs => c.isDigit && digitsTail cs

/-- Nonempty run of decimal digits with CPython underscore grouping
(first character a digit, underscores only between digits). -/
def digitGroup : List Char → Bool
  | [] => false
  | c :: cs => c.isDigit && digitsTail cs

/-- Strip one optional leading sign. -/
def dropSign : List Char → List Char
  | '+' :: cs => cs
  | '-' :: cs => cs
  | cs => cs

/-- Model of the strings accepted by CPython `int(s)` (base 10): optional
surrounding whitespace, optional sign, then a digit group; no decimal
point.  Unicode digits are out of scope (cells hold ordinary text). -/
def pyIntAccepts (s : String) : Bool :=
  digitGroup (dropSign (pyStrip s).toList)

/-- Split a character list at the first `e`/`E` (exponent marker). -/
def splitAtExp : List Char → List Char × Option (List Char)
  | [] => ([], none)
  | c :: cs =>
    if c = 'e' || c = 'E' then ([], some cs)
    else
      let r := splitAtExp cs
      (c :: r.1, r.2)

/-- Split a character list at the first `.` (decimal point). -/
def splitAtDot : List Char → List Char × Option (List Char)
  | [] => ([], none)
  | c :: cs =>
    if c = '.' then ([], some cs)
    else
      let r := splitAtDot cs
      (c :: r.1, r.2)

/-- Mantissa of a CPython float literal: `digits`, `digits.`, `.digits`
or `digits.digits` (each group with underscore rules). -/
def mantissaOk (l : List Char) : Bool :=
  let r := splitAtDot l
  match r.2 with
  | none => digitGroup r.1
  | some frac =>
    (digitGroup r.1 || r.1.isEmpty) && (digitGroup frac || frac.isEmpty) &&
      !(r.1.isEmpty && frac.isEmpty)

/-- Exponent part of a CPython float literal: optional sign then digits. -/
def expOk (l : List Char) : Bool :=
  digitGroup (dropSign l)

/-- Model of the strings accepted by CPython `float(s)`: optional
whitespace and sign, then `inf`/`infinity`/`nan` (case-insensitive) or a
decimal mantissa with optional exponent. -/
def pyFloatAccepts (s : String) : Bool :=
  let l := dropSign (pyStrip s).toList
  let low := l.map Char.toLower
  if low = ['i', 'n', 'f'] || low = ['i', 'n', 'f', 'i', 'n', 'i', 't', 'y'] ||
      low = ['n', 'a', 'n'] then
    true
  else
    let r := splitAtExp l
    match r.2 with
    | none => mantissaOk r.1
    | some e => mantissaOk r.1 && expOk e

/-- A non-null cell value of the loaded table: the runtime kinds the
engine distinguishes (spec design note: Integer, Float, Text, Boolean). -/
inductive Value where
  | VInt (n : Int)
  | VFloat (q : Rat)
  | VStr (s : String)
  | VBool (b : Bool)
deriving DecidableEq

/-- A cell: `none` is the null/absent marker (Python None / pandas NaN). -/
abbrev Cell := Option Value

/-- Embedding of `DataValidator._check_data_type`.  Mirrors the source's
`isinstance` cascade; note that in CPython `bool` is a subclass of
`int`, so a boolean satisfies `isinstance(value, int)` and (for the
float row) `isinstance(value, (int, float, np.number))`.  A string
argument is accepted when `int(value)` / `float(value)` does not raise,
modelled by `pyIntAccepts` / `pyFloatAccepts`; an exception is the
`return False` path of the source's `except` clause. -/
def checkDataType (v : Value) (expected : String) : Bool :=
  if expected = "int" then
    match v with
    | .VInt _ => true
    | .VBool _ => true
    | .VFloat q => q.den == 1
    | .VStr s => pyIntAccepts s
  else if expected = "float" then
    match v with
    | .VInt _ => true
    | .VBool _ => true
    | .VFloat _ => true
    | .VStr s => pyFloatAccepts s
  else if expected = "str" then
    match v with
    | .VStr _ => true
    | _ => false
  else if expected = "bool" then
    match v with
    | .VBool _ => true
    | _ => false
  else
    true

/-- Python's `type(value).__name__` for a cell value.  (Scalars read
back from a pandas numeric column are numpy scalars whose names carry a
width suffix, e.g. `float64`; no claim depends on this component of the
mismatch message, so the plain CPython names are used.) -/
def pyTypeName : Value → String
  | .VInt _ => "int"
  | .VFloat _ => "float"
  | .VStr _ => "str"
  | .VBool _ => "bool"

/-- Severity of a finding (`ValidationEntry.severity` in the source). -/
inductive Severity where
  | error
  | warning
  | passed
deriving DecidableEq

/-- Embedding of the `ValidationEntry` dataclass of
`src/validation_result.py`. -/
structure ValidationEntry where
  message : String
  column : String
  row : Option Nat
  severity : Severity
  value : Option Value
deriving DecidableEq

/-- Entry as appended by `ValidationResult.add_error`. -/
def mkError (message column : String) (row : Option Nat) (value : Option Value) :
    ValidationEntry :=
  ⟨message, column, row, .error, value⟩

/-- Entry as appended by `ValidationResult.add_warning`. -/
def mkWarning (message column : String) (row : Option Nat) (value : Option Value) :
    ValidationEntry :=
  ⟨message, column, row, .warning, value⟩

/-- Entry as appended by `ValidationResult.add_passed` (never carries a
value). -/
def mkPassed (message column : String) (row : Option Nat) : ValidationEntry :=
  ⟨message, column, row, .passed, none⟩

/-- Embedding of `ValidationResult`: the three append-only sequences of
findings plus the source identifier. -/
structure ValidationResult where
  source_file : String
  errors : List ValidationEntry
  warnings : List ValidationEntry
  passed : List ValidationEntry
deriving DecidableEq

/-- The loaded table: named columns in order, each a list of cells. -/
structure DataFrame where
  cols : List (String × List Cell)
deriving DecidableEq

/-- Column names in table order (`df.columns`). -/
def DataFrame.columns (df : DataFrame) : List String :=
  df.cols.map Prod.fst

/-- Number of rows (`len(df)`), read off the first column; pandas keeps
all columns at the index's length. -/
def DataFrame.nRows (df : DataFrame) : Nat :=
  match df.cols with
  | [] => 0
  | c :: _ => c.2.length

/-- pandas `df.empty`: true when the table has no columns or no rows. -/
def DataFrame.isEmpty (df : DataFrame) : Bool :=
  df.cols.isEmpty || df.nRows == 0

/-- Rectangularity plus distinct column names — the shape every table
produced by the pandas loader has. -/
def DataFrame.Wellformed (df : DataFrame) : Prop :=
  (∀ c ∈ df.cols, c.2.length = df.nRows) ∧ df.columns.Nodup

instance : DecidablePred DataFrame.Wellformed := fun df => by
  unfold DataFrame.Wellformed
  infer_instance

/-- Column lookup (`df[column]` after a `column in df.columns` check). -/
def DataFrame.getCol (df : DataFrame) (name : String) : Option (List Cell) :=
  (df.cols.find? (fun c => c.1 == name)).map Prod.snd

/-- Positions (0-based) at which `p` holds, starting the count at `k`.
Model of the row-index lists pandas boolean masks produce
(`df[mask].index.tolist()` under the default RangeIndex). -/
def idxWhereFrom (p : Cell → Bool) (k : Nat) : List Cell → List Nat
  | [] => []
  | c :: cs =>
    if p c then k :: idxWhereFrom p (k + 1) cs else idxWhereFrom p (k + 1) cs

/-- Positions at which `p` holds in a column. -/
def idxWhere (p : Cell → Bool) (col : List Cell) : List Nat :=
  idxWhereFrom p 0 col

/-- pandas `isnull()` on one cell. -/
def isNullCell : Cell → Bool
  | none => true
  | some _ => false

/-- One cell of `df[column].astype(str).str.strip() == ''`: only a
string cell can stringify to whitespace; `str()` of a number, boolean
or the null marker is never empty after stripping. -/
def stripsEmpty : Cell → Bool
  | some (.VStr s) => pyStrip s == ""
  | _ => false

/-- pandas dtype test `df[column].dtype == 'object'`.  A column is
object-typed in further cases (e.g. booleans mixed with nulls), but the
engine consults the dtype only to gate the empty-string scan, which can
fire only on string cells; on a string-free object column the scan finds
nothing, exactly as the non-object branch does, so testing for the
presence of a string cell is observationally equivalent. -/
def isObjectDtype (col : List Cell) : Bool :=
  col.any (fun c =>
    match c with
    | some (.VStr _) => true
    | _ => false)

/-- `null_indices` of `detect_missing_values`. -/
def nullIdx (col : List Cell) : List Nat :=
  idxWhere isNullCell col

/-- `empty_indices` of `detect_missing_values` (computed only for
object-dtype columns; the mask already excludes null cells). -/
def emptyIdx (col : List Cell) : List Nat :=
  if isObjectDtype col then idxWhere stripsEmpty col else []

/-- Concatenation of the images of `f` (the per-element blocks each loop
iteration appends). -/
def catMap (f : α → List β) : List α → List β
  | [] => []
  | x :: xs => f x ++ catMap f xs

/-- Findings one column contributes to `detect_missing_values`:
the null-missing errors (in mask order), then the empty-missing errors,
then — when `len(df) - nulls - empties > 0` — one aggregate passed
entry.  `nRows` is `len(df)`. -/
def missingColFindings (nRows : Nat) (name : String) (col : List Cell) :
    List ValidationEntry × List ValidationEntry :=
  let nIdx := nullIdx col
  let eIdx := emptyIdx col
  let validCount : Int := (nRows : Int) - nIdx.length - eIdx.length
  ((nIdx.map fun i => mkError "Missing value (null/NaN)" name (some i) none) ++
      (eIdx.map fun i => mkError "Missing value (empty string)" name (some i) none),
   if 0 < validCount then [mkPassed (toString validCount ++ " valid values") name none]
   else [])

/-- Embedding of `DataValidator.detect_missing_values`. -/
def detectMissingValues (df : DataFrame) : ValidationResult :=
  if df.isEmpty then
    ⟨"", [], [mkWarning "Empty dataframe provided" "" none none], []⟩
  else
    ⟨"",
     catMap (fun c => (missingColFindings df.nRows c.1 c.2).1) df.cols,
     [],
     catMap (fun c => (missingColFindings df.nRows c.1 c.2).2) df.cols⟩

/-- pandas `dropna()` keeping original row indices: the (index, value)
pairs of the non-null cells, counting from `k`. -/
def dropNAFrom (k : Nat) : List Cell → List (Nat × Value)
  | [] => []
  | none :: cs => dropNAFrom (k + 1) cs
  | some v :: cs => (k, v) :: dropNAFrom (k + 1) cs

/-- pandas `col_data = df[column].dropna()`, with row indices. -/
def dropNA (col : List Cell) : List (Nat × Value) :=
  dropNAFrom 0 col

/-- Findings of `validate_data_types` for one present column: a warning
when every cell was null, otherwise one entry per remaining cell —
an error carrying the offending value on predicate failure, a passed
entry on success, in row order.  Result is (errors, warnings, passed). -/
def typeColFindings (name expected : String) (col : List Cell) :
    List ValidationEntry × List ValidationEntry × List ValidationEntry :=
  let data := dropNA col
  if data.isEmpty then
    ([], [mkWarning "Column contains only missing values" name none none], [])
  else
    ((data.filter fun iv => !checkDataType iv.2 expected).map
        (fun iv =>
          mkError ("Invalid data type. Expected " ++ expected ++ ", got " ++ pyTypeName iv.2)
            name (some iv.1) (some iv.2)),
     [],
     (data.filter fun iv => checkDataType iv.2 expected).map
        (fun iv => mkPassed ("Valid " ++ expected ++ " value") name (some iv.1)))

/-- One iteration of the `validate_data_types` rule loop: an error when
the column is absent, otherwise the per-column findings. -/
def typeRuleFindings (df : DataFrame) (rule : String × String) :
    List ValidationEntry × List ValidationEntry × List ValidationEntry :=
  match df.getCol rule.1 with
  | none => ([mkError "Column not found in data" rule.1 none none], [], [])
  | some col => typeColFindings rule.1 rule.2 col

/-- Embedding of `DataValidator.validate_data_types`; `typeRules` lists
the `data_types` mapping in its (insertion) iteration order. -/
def validateDataTypes (df : DataFrame) (typeRules : List (String × String)) :
    ValidationResult :=
  ⟨"",
   catMap (fun r => (typeRuleFindings df r).1) typeRules,
   catMap (fun r => (typeRuleFindings df r).2.1) typeRules,
   catMap (fun r => (typeRuleFindings df r).2.2) typeRules⟩

/-- First-occurrence deduplication.  Python's `set(required_columns)`
iterates in an unspecified (hash) order; any claim settled here is
independent of the order chosen, and first-occurrence order is used as
the deterministic model. -/
def pyDedupAux (seen : List String) : List String → List String
  | [] => []
  | x :: xs =>
    if seen.contains x then pyDedupAux seen xs
    else x :: pyDedupAux (x :: seen) xs

/-- First-occurrence deduplication of a list of names. -/
def pyDedup (l : List String) : List String :=
  pyDedupAux [] l

/-- Embedding of `DataValidator._validate_required_columns`: one error
per element of `set(required) - set(df.columns)`, then one passed entry
per listed name found in the table, in list order.  Result is
(errors, passed); the pass emits no warnings. -/
def requiredColumnsFindings (df : DataFrame) (required : List String) :
    List ValidationEntry × List ValidationEntry :=
  let missing := pyDedup (required.filter (fun c => !df.columns.contains c))
  (missing.map (fun c => mkError "Required column missing" c none none),
   (required.filter (fun c => df.columns.contains c)).map
     (fun c => mkPassed "Required column present" c none))

/-- The rule configuration: the two recognized top-level keys, each
present or absent (`'required_columns' in rules` / `'data_types' in
rules`). -/
structure RuleSet where
  required_columns : Option (List String)
  data_types : Option (List (String × String))
deriving DecidableEq

/-- Required-columns errors contributed to a run (empty when the key is
absent). -/
def reqErrorsOf (df : DataFrame) (rules : RuleSet) : List ValidationEntry :=
  match rules.required_columns with
  | some r => (requiredColumnsFindings df r).1
  | none => []

/-- Required-columns passed entries contributed to a run. -/
def reqPassedOf (df : DataFrame) (rules : RuleSet) : List ValidationEntry :=
  match rules.required_columns with
  | some r => (requiredColumnsFindings df r).2
  | none => []

/-- Type-pass result contributed to a run (empty when the key is
absent). -/
def typeResultOf (df : DataFrame) (rules : RuleSet) : ValidationResult :=
  match rules.data_types with
  | some tr => validateDataTypes df tr
  | none => ⟨"", [], [], []⟩

/-- The post-load body of `DataValidator.validate_file`: the empty-table
early return, then the three passes extending the shared result in
order — required columns (when configured), missing values
(unconditionally), data types (when configured). -/
def runChecks (sourceFile : String) (df : DataFrame) (rules : RuleSet) :
    ValidationResult :=
  if df.isEmpty then
    ⟨sourceFile, [], [mkWarning "File contains no data" "" none none], []⟩
  else
    let miss := detectMissingValues df
    let ty := typeResultOf df rules
    ⟨sourceFile,
     reqErrorsOf df rules ++ miss.errors ++ ty.errors,
     miss.warnings ++ ty.warnings,
     reqPassedOf df rules ++ miss.passed ++ ty.passed⟩

/-- A file on disk as the loader sees it: its content either parses as a
table or does not (`pd.read_excel` / `pd.read_csv` raising is the
`parsed = none` case). -/
structure RawFile where
  parsed : Option DataFrame
deriving DecidableEq

/-- The two fatal load failures of `validate_file`:
`FileNotFoundError` and `ValueError` (unsupported extension or
unparsable content — both surface as `ValueError`). -/
inductive LoadError where
  | notFound
  | formatError
deriving DecidableEq

/-- Embedding of `DataValidator.validate_file` over an abstract
filesystem `fs` (path ↦ file, `none` when `Path(file_path).exists()` is
false).  The existence check runs first; then the extension dispatch and
parse, whose failures both raise `ValueError`; only then is the result
object created and the checks run. -/
def validateFile (fs : String → Option RawFile) (path : String) (rules : RuleSet) :
    Except LoadError ValidationResult :=
  match fs path with
  | none => .error .notFound
  | some raw =>
    if path.endsWith ".xlsx" || path.endsWith ".csv" then
      match raw.parsed with
      | none => .error .formatError
      | some df => .ok (runChecks path df rules)
    else
      .error .formatError

/-- Entries of a findings list that concern column `c`. -/
def entriesFor (c : String) (l : List ValidationEntry) : List ValidationEntry :=
  l.filter (fun e => e.column == c)

/-- Concrete row indices carried by a findings list, in list order. -/
def rowsOf (l : List ValidationEntry) : List Nat :=
  l.filterMap (fun e => e.row)

/-- The type-predicate table exactly as the spec's §4.2c states it:
`int` accepts a native integer, an integral float, or a string the
integer parser accepts; `float` accepts any native numeric (integer or
floating) or a string the float parser accepts; `str` accepts a text
value; `bool` accepts a native boolean; any other tag accepts
everything.  (In the spec's value vocabulary — design note §9 — Integer
and Boolean are distinct kinds, so a boolean is not a "native integer"
here.) -/
def specTypeTable (v : Value) (expected : String) : Bool :=
  if expected = "int" then
    (match v with | .VInt _ => true | _ => false) ||
      (match v with | .VFloat q => q.den == 1 | _ => false) ||
      (match v with | .VStr s => pyIntAccepts s | _ => false)
  else if expected = "float" then
    (match v with | .VInt _ => true | .VFloat _ => true | _ => false) ||
      (match v with | .VStr s => pyFloatAccepts s | _ => false)
  else if expected = "str" then
    match v with | .VStr _ => true | _ => false
  else if expected = "bool" then
    match v with | .VBool _ => true | _ => false
  else
    true

/-- The spec's type table amended as the code forces: because booleans
are a subclass of integers in the host runtime, the `int` and `float`
rows additionally accept a native boolean. -/
def specTypeTableAmended (v : Value) (expected : String) : Bool :=
  if expected = "int" then
    (match v with | .VInt _ => true | _ => false) ||
      (match v with | .VFloat q => q.den == 1 | _ => false) ||
      (match v with | .VStr s => pyIntAccepts s | _ => false) ||
      (match v with | .VBool _ => true | _ => false)
  else if expected = "float" then
    (match v with | .VInt _ => true | .VFloat _ => true | _ => false) ||
      (match v with | .VStr s => pyFloatAccepts s | _ => false) ||
      (match v with | .VBool _ => true | _ => false)
  else if expected = "str" then
    match v with | .VStr _ => true | _ => false
  else if expected = "bool" then
    match v with | .VBool _ => true | _ => false
  else
    true

/-- The spec scenario table `{id:[1,2,None], name:["A","B",""]}` as
pandas loads it (the `id` column, holding a null, is coerced to
float64). -/
def dfScenario : DataFrame :=
  ⟨[("id", [some (.VFloat 1), some (.VFloat 2), none]),
    ("name", [some (.VStr "A"), some (.VStr "B"), some (.VStr "")])]⟩

/-- The scenario's `data_types` rules. -/
def scenarioTypeRules : List (String × String) :=
  [("id", "int"), ("name", "str")]

/-- One-column table whose cell order (empty string at row 0, null at
row 1) exercises the missing pass's emission order. -/
def dfNullAfterEmpty : DataFrame :=
  ⟨[("x", [some (.VStr ""), none])]⟩

/-- One-column one-cell integer table. -/
def dfOneInt : DataFrame :=
  ⟨[("a", [some (.VInt 1)])]⟩

/-- One-column table of boolean cells. -/
def boolDF (bs : List Bool) : DataFrame :=
  ⟨[("flag", bs.map fun b => some (.VBool b))]⟩

/-- A filesystem holding one parseable csv file. -/
def fsGood : String → Option RawFile := fun p =>
  if p = "data.csv" then some ⟨some dfOneInt⟩ else none

/-- A rule set exercising both configured passes on column "x". -/
def rulesX : RuleSet := ⟨some ["x"], some [("x", "str")]⟩

lemma filter_eq_nil_of {α} (p : α → Bool) :
    ∀ l : List α, (∀ a ∈ l, p a = false) → l.filter p = []
  | [], _ => rfl
  | x :: xs, h => by
    have hx := h x (by simp)
    simp [List.filter, hx, filter_eq_nil_of p xs (fun a ha => h a (by simp [ha]))]

lemma filter_eq_self_of {α} (p : α → Bool) :
    ∀ l : List α, (∀ a ∈ l, p a = true) → l.filter p = l
  | [], _ => rfl
  | x :: xs, h => by
    have hx := h x (by simp)
    simp [List.filter, hx, filter_eq_self_of p xs (fun a ha => h a (by simp [ha]))]

lemma mem_catMap {α β} (f : α → List β) (e : β) :
    ∀ l : List α, e ∈ catMap f l ↔ ∃ x ∈ l, e ∈ f x
  | [] => by simp [catMap]
  | x :: xs => by
    simp [catMap, List.mem_append, mem_catMap f e xs]

lemma filter_catMap {α β} (f : α → List β) (p : β → Bool) :
    ∀ l : List α, (catMap f l).filter p = catMap (fun x => (f x).filter p) l
  | [] => rfl
  | x :: xs => by
    simp [catMap, List.filter_append, filter_catMap f p xs]

lemma idxWhereFrom_lb (p : Cell → Bool) :
    ∀ (l : List Cell) (k i : Nat), i ∈ idxWhereFrom p k l → k ≤ i
  | [], _, _, h => by simp [idxWhereFrom] at h
  | c :: cs, k, i, h => by
    by_cases hp : p c
    · simp only [idxWhereFrom, hp, if_true, List.mem_cons] at h
      rcases h with h | h
      · omega
      · have := idxWhereFrom_lb p cs (k + 1) i h
        omega
    · simp only [idxWhereFrom, hp, if_false, Bool.false_eq_true] at h
      have := idxWhereFrom_lb p cs (k + 1) i h
      omega

lemma idxWhereFrom_pairwise (p : Cell → Bool) :
    ∀ (l : List Cell) (k : Nat), (idxWhereFrom p k l).Pairwise (· < ·)
  | [], _ => by simp [idxWhereFrom]
  | c :: cs, k => by
    by_cases hp : p c
    · simp only [idxWhereFrom, hp, if_true]
      refine List.Pairwise.cons ?_ (idxWhereFrom_pairwise p cs (k + 1))
      intro i hi
      have := idxWhereFrom_lb p cs (k + 1) i hi
      omega
    · simpa only [idxWhereFrom, hp, if_false] using idxWhereFrom_pairwise p cs (k + 1)

lemma mem_idxWhereFrom (p : Cell → Bool) :
    ∀ (l : List Cell) (k i : Nat),
      i ∈ idxWhereFrom p k l ↔ ∃ j x, l[j]? = some x ∧ p x = true ∧ i = k + j
  | [], k, i => by simp [idxWhereFrom]
  | c :: cs, k, i => by
    constructor
    · intro h
      by_cases hp : p c
      · simp only [idxWhereFrom, hp, if_true, List.mem_cons] at h
        rcases h with rfl | h
        · exact ⟨0, c, by simp, hp, by omega⟩
        · obtain ⟨j, x, hj, hx, hi⟩ := (mem_idxWhereFrom p cs (k + 1) i).mp h
          exact ⟨j + 1, x, by simpa using hj, hx, by omega⟩
      · simp only [idxWhereFrom, hp, if_false, Bool.false_eq_true] at h
        obtain ⟨j, x, hj, hx, hi⟩ := (mem_idxWhereFrom p cs (k + 1) i).mp h
        exact ⟨j + 1, x, by simpa using hj, hx, by omega⟩
    · rintro ⟨j, x, hj, hx, rfl⟩
      rcases j with _ | j
      · simp only [List.getElem?_cons_zero, Option.some.injEq] at hj
        subst hj
        simp [idxWhereFrom, hx]
      · simp only [List.getElem?_cons_succ] at hj
        have hmem : k + 1 + j ∈ idxWhereFrom p (k + 1) cs :=
          (mem_idxWhereFrom p cs (k + 1) (k + 1 + j)).mpr ⟨j, x, hj, hx, rfl⟩
        have : k + (j + 1) = k + 1 + j := by omega
        rw [this]
        by_cases hp : p c
        · simp only [idxWhereFrom, hp, if_true, List.mem_cons]
          exact Or.inr hmem
        · simpa only [idxWhereFrom, hp, if_false] using hmem

lemma mem_idxWhere (p : Cell → Bool) (l : List Cell) (i : Nat) :
    i ∈ idxWhere p l ↔ ∃ x, l[i]? = some x ∧ p x = true := by
  unfold idxWhere
  rw [mem_idxWhereFrom]
  constructor
  · rintro ⟨j, x, hj, hx, rfl⟩
    exact ⟨x, by simpa using hj, hx⟩
  · rintro ⟨x, hi, hx⟩
    exact ⟨i, x, hi, hx, by omega⟩

lemma length_idxWhereFrom_disjoint (p q : Cell → Bool)
    (hpq : ∀ x, p x = true → q x = false) :
    ∀ (l : List Cell) (k : Nat),
      (idxWhereFrom p k l).length + (idxWhereFrom q k l).length ≤ l.length
  | [], _ => by simp [idxWhereFrom]
  | c :: cs, k => by
    have ih := length_idxWhereFrom_disjoint p q hpq cs (k + 1)
    by_cases hp : p c
    · have hq := hpq c hp
      simp only [idxWhereFrom, hp, hq, if_true, Bool.false_eq_true, if_false,
        List.length_cons]
      omega
    · by_cases hq : q c
      · simp only [idxWhereFrom, hp, hq, if_true, Bool.false_eq_true, if_false,
          List.length_cons]
        omega
      · simp only [idxWhereFrom, hp, hq, Bool.false_eq_true, if_false, List.length_cons]
        omega

lemma idxWhere_nodup (p : Cell → Bool) (l : List Cell) : (idxWhere p l).Nodup :=
  (idxWhereFrom_pairwise p l 0).imp Nat.ne_of_lt

lemma dropNAFrom_fst_lb :
    ∀ (l : List Cell) (k : Nat), ∀ iv ∈ dropNAFrom k l, k ≤ iv.1
  | [], _, _, h => by simp [dropNAFrom] at h
  | none :: cs, k, iv, h => by
    have := dropNAFrom_fst_lb cs (k + 1) iv (by simpa [dropNAFrom] using h)
    omega
  | some v :: cs, k, iv, h => by
    simp only [dropNAFrom, List.mem_cons] at h
    rcases h with rfl | h
    · simp
    · have := dropNAFrom_fst_lb cs (k + 1) iv h
      omega

lemma dropNAFrom_fst_pairwise :
    ∀ (l : List Cell) (k : Nat), (dropNAFrom k l).Pairwise (fun a b => a.1 < b.1)
  | [], _ => by simp [dropNAFrom]
  | none :: cs, k => by
    simpa only [dropNAFrom] using dropNAFrom_fst_pairwise cs (k + 1)
  | some v :: cs, k => by
    simp only [dropNAFrom]
    refine List.Pairwise.cons ?_ (dropNAFrom_fst_pairwise cs (k + 1))
    intro iv hiv
    have := dropNAFrom_fst_lb cs (k + 1) iv hiv
    simpa using by omega

lemma length_dropNAFrom_map_some {α} (f : α → Value) :
    ∀ (l : List α) (k : Nat),
      (dropNAFrom k (l.map fun x => some (f x))).length = l.length
  | [], _ => rfl
  | x :: xs, k => by
    simp [dropNAFrom, length_dropNAFrom_map_some f xs (k + 1)]

lemma snd_mem_dropNAFrom_map_some {α} (f : α → Value) :
    ∀ (l : List α) (k : Nat), ∀ iv ∈ dropNAFrom k (l.map fun x => some (f x)),
      ∃ x ∈ l, iv.2 = f x
  | [], _, _, h => by simp [dropNAFrom] at h
  | x :: xs, k, iv, h => by
    simp only [List.map_cons, dropNAFrom, List.mem_cons] at h
    rcases h with rfl | h
    · exact ⟨x, by simp⟩
    · obtain ⟨y, hy, hiv⟩ := snd_mem_dropNAFrom_map_some f xs (k + 1) iv h
      exact ⟨y, by simp [hy], hiv⟩

lemma rowsOf_append (l₁ l₂ : List ValidationEntry) :
    rowsOf (l₁ ++ l₂) = rowsOf l₁ ++ rowsOf l₂ := by
  simp [rowsOf, List.filterMap_append]

lemma rowsOf_map_of_row {α} (g : α → ValidationEntry) (f : α → Nat)
    (hg : ∀ a, (g a).row = some (f a)) :
    ∀ l : List α, rowsOf (l.map g) = l.map f
  | [] => rfl
  | x :: xs => by
    simp only [List.map_cons, rowsOf, List.filterMap_cons, hg x]
    simpa [rowsOf] using rowsOf_map_of_row g f hg xs

lemma entriesFor_blocks {β} (f : String × β → List ValidationEntry)
    (hf : ∀ p e, e ∈ f p → e.column = p.1) (c : String) (b : β) :
    ∀ cols : List (String × β), (cols.map Prod.fst).Nodup → (c, b) ∈ cols →
      entriesFor c (catMap f cols) = f (c, b)
  | [], _, hmem => by simp at hmem
  | p :: ps, hnd, hmem => by
    simp only [List.map_cons, List.nodup_cons] at hnd
    rcases List.mem_cons.mp hmem with heq | hmem'
    · subst heq
      unfold entriesFor catMap
      rw [List.filter_append,
        filter_eq_self_of _ _ (fun e he => by simp [hf _ e he]),
        filter_eq_nil_of _ _ ?_, List.append_nil]
      intro e he
      obtain ⟨q, hq, heq⟩ := (mem_catMap _ e ps).mp he
      have hcol := hf q e heq
      have hq1 : q.1 ∈ ps.map Prod.fst := List.mem_map_of_mem Prod.fst hq
      have hne : q.1 ≠ c := by
        intro h
        rw [h] at hq1
        exact hnd.1 hq1
      simp [hcol, hne]
    · have hc1 : c ∈ ps.map Prod.fst := by
        have := List.mem_map_of_mem Prod.fst hmem'
        simpa using this
      have hcne : c ≠ p.1 := by
        intro h
        rw [h] at hc1
        exact hnd.1 hc1
      unfold entriesFor catMap
      rw [List.filter_append, filter_eq_nil_of _ _ ?_, List.nil_append]
      · exact entriesFor_blocks f hf c b ps hnd.2 hmem'
      · intro e he
        have hcol := hf p e he
        rw [hcol]
        simp only [beq_eq_false_iff_ne, ne_eq]
        exact fun h => hcne h.symm

lemma pyDedupAux_of_nodup :
    ∀ l : List String, ∀ seen : List String,
      (∀ x ∈ l, seen.contains x = false) → l.Nodup → pyDedupAux seen l = l
  | [], _, _, _ => rfl
  | x :: xs, seen, hseen, hnd => by
    simp only [List.nodup_cons] at hnd
    have hx := hseen x (by simp)
    simp only [pyDedupAux, hx, Bool.false_eq_true, if_false, List.cons.injEq, true_and]
    refine pyDedupAux_of_nodup xs (x :: seen) ?_ hnd.2
    intro y hy
    have h1 : seen.contains y = false := hseen y (by simp [hy])
    have h2 : y ≠ x := fun h => hnd.1 (h ▸ hy)
    simp_all

lemma pyDedup_of_nodup (l : List String) (h : l.Nodup) : pyDedup l = l :=
  pyDedupAux_of_nodup l [] (by simp) h

lemma boolDF_typePass (t : String) (ht : ∀ b, checkDataType (.VBool b) t = true)
    (bs : List Bool) :
    (validateDataTypes (boolDF bs) [("flag", t)]).errors = [] ∧
    (validateDataTypes (boolDF bs) [("flag", t)]).passed.length = bs.length := by
  have hcol : (boolDF bs).getCol "flag" = some (bs.map fun b => some (.VBool b)) := rfl
  have hlen : (dropNA (bs.map fun b => some (.VBool b))).length = bs.length :=
    length_dropNAFrom_map_some (fun b => Value.VBool b) bs 0
  have hsnd := snd_mem_dropNAFrom_map_some (fun b => Value.VBool b) bs 0
  simp only [validateDataTypes, catMap, typeRuleFindings, hcol, typeColFindings,
    List.append_nil]
  rcases bs with _ | ⟨b, bs'⟩
  · simp [dropNA, dropNAFrom]
  · have hne : (dropNA ((b :: bs').map fun b => some (.VBool b))).isEmpty = false := by
      simp [dropNA, dropNAFrom]
    simp only [hne, Bool.false_eq_true, if_false]
    constructor
    · simp only [List.map_eq_nil_iff]
      apply filter_eq_nil_of
      intro iv hiv
      obtain ⟨x, _, hx⟩ := hsnd iv hiv
      simp [hx, ht x]
    · rw [filter_eq_self_of _ _ ?_, List.length_map, hlen]
      intro iv hiv
      obtain ⟨x, _, hx⟩ := hsnd iv hiv
      simp [hx, ht x]

/-- C1: the claim's type-predicate table (§4.2c) fails on the code: a
native boolean passes the `int` predicate (CPython booleans are a
subclass of int), while the spec's table accepts under `int` only a
native integer, an integral float, or an integer-parsing string. -/
theorem C1_type_predicate_counterexample :
    checkDataType (.VBool true) "int" = true ∧
      specTypeTable (.VBool true) "int" = false := by
  decide

/-- C1 (amended): the type predicate of `_check_data_type` agrees with
the spec's table amended to let the `int` and `float` rows additionally
accept a native boolean; the claim's concrete instances hold (an
integral float such as 30.0 passes `int`, `"30"` passes `int`, `"3.5"`
fails `int` but passes `float`, and numeric values never pass `str`),
and malformed numeric strings simply fail the predicate. -/
theorem C1_type_predicate_amended :
    (∀ (v : Value) (t : String), checkDataType v t = specTypeTableAmended v t) ∧
    checkDataType (.VFloat 30) "int" = true ∧
    checkDataType (.VStr "30") "int" = true ∧
    checkDataType (.VStr "3.5") "int" = false ∧
    checkDataType (.VStr "3.5") "float" = true ∧
    checkDataType (.VStr "abc") "int" = false ∧
    checkDataType (.VStr "abc") "float" = false ∧
    (∀ n : Int, checkDataType (.VInt n) "str" = false) ∧
    (∀ q : Rat, checkDataType (.VFloat q) "str" = false) := by
  refine ⟨?_, by decide, by decide, by decide, by decide, by decide, by decide, ?_, ?_⟩
  · intro v t
    unfold checkDataType specTypeTableAmended
    split_ifs <;> cases v <;> simp
  · intro n
    rfl
  · intro q
    rfl

/-- C4: a table with zero rows short-circuits `validate_file` right
after loading: the result holds exactly one warning ("File contains no
data", column "") and no errors or passed entries, whatever the rules
are — none of the three checks runs. -/
theorem C4_zero_rows_single_warning (src : String) (df : DataFrame) (rules : RuleSet)
    (h : df.nRows = 0) :
    runChecks src df rules =
      ⟨src, [], [mkWarning "File contains no data" "" none none], []⟩ := by
  have he : df.isEmpty = true := by
    unfold DataFrame.isEmpty
    simp [h]
  simp [runChecks, he]

/-- Witness for C4 at a zero-row single-column table with both rule
kinds configured. -/
theorem C4_zero_rows_single_warning_witness :
    runChecks "f.csv" ⟨[("a", [])]⟩ ⟨some ["a"], some [("a", "int")]⟩ =
      ⟨"f.csv", [], [mkWarning "File contains no data" "" none none], []⟩ :=
  C4_zero_rows_single_warning "f.csv" ⟨[("a", [])]⟩ ⟨some ["a"], some [("a", "int")]⟩
    (by decide)

/-- C7: with `required_columns` a set of names (the spec's §3 data
model — so no duplicate entries), the required-column pass emits exactly
one "Required column missing" error (row absent) per listed name not in
the table and exactly one "Required column present" passed entry per
listed name found, the latter in the order given in the list. -/
theorem C7_required_columns (df : DataFrame) (required : List String)
    (hnd : required.Nodup) :
    (requiredColumnsFindings df required).1 =
      (required.filter fun c => !df.columns.contains c).map
        (fun c => mkError "Required column missing" c none none) ∧
    (requiredColumnsFindings df required).2 =
      (required.filter fun c => df.columns.contains c).map
        (fun c => mkPassed "Required column present" c none) := by
  constructor
  · unfold requiredColumnsFindings
    rw [pyDedup_of_nodup _ (hnd.filter _)]
  · rfl

/-- Witness for C7: the spec scenario `required_columns=["a","b"]`
against a table having only column "a" — one error for "b", one passed
for "a". -/
theorem C7_required_columns_witness :
    (requiredColumnsFindings dfOneInt ["a", "b"]).1 =
      [mkError "Required column missing" "b" none none] ∧
    (requiredColumnsFindings dfOneInt ["a", "b"]).2 =
      [mkPassed "Required column present" "a" none] := by
  have h := C7_required_columns dfOneInt ["a", "b"] (by decide)
  exact ⟨h.1.trans (by decide), h.2.trans (by decide)⟩

/-- C8: `validate_file` fails with the not-found error exactly when the
path does not resolve, and with the format error exactly when the file
exists but has an unsupported extension or unparsable content; every
successful run's result is produced by the checks after a successful
load, so an aborted run returns no result object (hence no
ValidationEntry) at all. -/
theorem C8_load_failures (fs : String → Option RawFile) (path : String)
    (rules : RuleSet) :
    (validateFile fs path rules = .error .notFound ↔ fs path = none) ∧
    (validateFile fs path rules = .error .formatError ↔
       ∃ raw, fs path = some raw ∧
         ((path.endsWith ".xlsx" || path.endsWith ".csv") = false ∨
           raw.parsed = none)) ∧
    (∀ res, validateFile fs path rules = .ok res →
       ∃ raw df, fs path = some raw ∧ raw.parsed = some df ∧
         res = runChecks path df rules) := by
  unfold validateFile
  rcases h : fs path with _ | raw
  · simp
  · by_cases hext : (path.endsWith ".xlsx" || path.endsWith ".csv") = true
    · rcases hp : raw.parsed with _ | df
      · simp [hext, hp]
      · simp only [hext, hp, if_true]
        refine ⟨by simp, by simp [hp], ?_⟩
        intro res hres
        simp only [Except.ok.injEq] at hres
        exact ⟨raw, df, rfl, hp, hres.symm⟩
    · simp only [Bool.not_eq_true] at hext
      simp [hext]

/-- Witness for C8 at a concrete filesystem holding one parseable csv. -/
theorem C8_load_failures_witness :
    (validateFile fsGood "data.csv" ⟨none, none⟩ = .error .notFound ↔
       fsGood "data.csv" = none) ∧
    (validateFile fsGood "data.csv" ⟨none, none⟩ = .error .formatError ↔
       ∃ raw, fsGood "data.csv" = some raw ∧
         ((("data.csv").endsWith ".xlsx" || ("data.csv").endsWith ".csv") = false ∨
           raw.parsed = none)) ∧
    (∀ res, validateFile fsGood "data.csv" ⟨none, none⟩ = .ok res →
       ∃ raw df, fsGood "data.csv" = some raw ∧ raw.parsed = some df ∧
         res = runChecks "data.csv" df ⟨none, none⟩) :=
  C8_load_failures fsGood "data.csv" ⟨none, none⟩

/-- C10 (implicit): a native boolean passes the type predicate under
expected type `int` and under `float` (CPython's bool is a subclass of
int) even though `bool` is its own tag, so a boolean cell in a column
typed int or float yields a passed entry and never a type-mismatch
error. -/
theorem C10_bool_passes_int_and_float :
    (∀ b : Bool,
       checkDataType (.VBool b) "int" = true ∧
       checkDataType (.VBool b) "float" = true ∧
       checkDataType (.VBool b) "bool" = true) ∧
    (∀ bs : List Bool,
       (validateDataTypes (boolDF bs) [("flag", "int")]).errors = [] ∧
       (validateDataTypes (boolDF bs) [("flag", "int")]).passed.length = bs.length ∧
       (validateDataTypes (boolDF bs) [("flag", "float")]).errors = [] ∧
       (validateDataTypes (boolDF bs) [("flag", "float")]).passed.length = bs.length) := by
  refine ⟨fun b => by cases b <;> exact ⟨rfl, rfl, rfl⟩, fun bs => ?_⟩
  have h1 := boolDF_typePass "int" (fun b => by cases b <;> rfl) bs
  have h2 := boolDF_typePass "float" (fun b => by cases b <;> rfl) bs
  exact ⟨h1.1, h1.2, h2.1, h2.2⟩

lemma filter_map_comm {α β} (g : α → β) (q : β → Bool) :
    ∀ l : List α, (l.map g).filter q = (l.filter fun a => q (g a)).map g
  | [] => rfl
  | x :: xs => by
    by_cases h : q (g x)
    · simp [List.filter_cons, h, filter_map_comm g q xs]
    · simp [List.filter_cons, h, filter_map_comm g q xs]

lemma filter_congr_of {α} (p q : α → Bool) :
    ∀ l : List α, (∀ a ∈ l, p a = q a) → l.filter p = l.filter q
  | [], _ => rfl
  | x :: xs, h => by
    have hx := h x (by simp)
    have ih := filter_congr_of p q xs (fun a ha => h a (by simp [ha]))
    by_cases hq : q x
    · simp [List.filter_cons, hq, hx.trans hq, ih]
    · simp only [Bool.not_eq_true] at hq
      simp [List.filter_cons, hq, hx.trans hq, ih]

lemma filter_beq_nodup (i : Nat) :
    ∀ l : List Nat, l.Nodup → i ∈ l → l.filter (fun j => j == i) = [i]
  | [], _, h => by simp at h
  | x :: xs, hnd, h => by
    simp only [List.nodup_cons] at hnd
    rcases List.mem_cons.mp h with rfl | hx
    · have hrest : xs.filter (fun j => j == i) = [] :=
        filter_eq_nil_of _ _ (fun j hj => by
          have : j ≠ i := fun e => hnd.1 (e ▸ hj)
          simp [this])
      simp [List.filter_cons, hrest]
    · have hxi : (x == i) = false := by
        have : x ≠ i := fun e => hnd.1 (e ▸ hx)
        simp [this]
      simp [List.filter_cons, hxi, filter_beq_nodup i xs hnd.2 hx]

lemma missing_errors_column (n : Nat) (p : String × List Cell) (e : ValidationEntry)
    (he : e ∈ (missingColFindings n p.1 p.2).1) : e.column = p.1 := by
  unfold missingColFindings at he
  simp only [List.mem_append, List.mem_map] at he
  rcases he with ⟨i, _, rfl⟩ | ⟨i, _, rfl⟩ <;> rfl

lemma missing_passed_column (n : Nat) (p : String × List Cell) (e : ValidationEntry)
    (he : e ∈ (missingColFindings n p.1 p.2).2) : e.column = p.1 := by
  unfold missingColFindings at he
  simp only at he
  split at he
  · rcases List.mem_singleton.mp he with rfl
    rfl
  · simp at he

lemma isEmpty_false_of_mem_pos (df : DataFrame) (c : String) (col : List Cell)
    (hmem : (c, col) ∈ df.cols) (hlen : col.length = df.nRows) (hpos : 0 < col.length) :
    df.isEmpty = false := by
  have hcolsne : df.cols ≠ [] := List.ne_nil_of_mem hmem
  have h1 : df.cols.isEmpty = false := by
    simpa [List.isEmpty_iff] using hcolsne
  have h2 : (df.nRows == 0) = false := by
    have : df.nRows ≠ 0 := by omega
    simpa using this
  simp [DataFrame.isEmpty, h1, h2]

/-- C2: the claim fails on the code.  In the scenario table
`{id:[1,2,None], name:["A","B",""]}` with `data_types
{id:'int', name:'str'}`, the type check on `name` produces 3 passed
entries, not 2: `dropna` removes only null cells, so the empty-string
cell at row 2 stays in `col_data` and, being a string, satisfies the
`str` predicate. -/
theorem C2_scenario_counterexample :
    (entriesFor "name" (validateDataTypes dfScenario scenarioTypeRules).passed).length
        = 3 ∧
    ¬ (entriesFor "name" (validateDataTypes dfScenario scenarioTypeRules).passed).length
        = 2 := by
  decide

/-- C2 (amended): in the scenario, the type check on `name` produces
exactly 3 passed entries (rows 0, 1 and 2) — the empty-string cell is
not excluded, because only null cells are dropped before type checking
and an empty string is a valid `str`; the type check on `id` passes
rows 0 and 1 (row 2 excluded as null), no type errors arise, and the
missing-value pass still reports the null at (id, 2) and the empty
string at (name, 2). -/
theorem C2_scenario_amended :
    rowsOf (entriesFor "id" (validateDataTypes dfScenario scenarioTypeRules).passed)
        = [0, 1] ∧
    rowsOf (entriesFor "name" (validateDataTypes dfScenario scenarioTypeRules).passed)
        = [0, 1, 2] ∧
    (validateDataTypes dfScenario scenarioTypeRules).errors = [] ∧
    (detectMissingValues dfScenario).errors =
      [mkError "Missing value (null/NaN)" "id" (some 2) none,
       mkError "Missing value (empty string)" "name" (some 2) none] := by
  decide

/-- C3: the claim fails on the code.  An unrecognized type tag makes
`_check_data_type` return True for every value, but `validate_data_types`
then adds one passed ValidationEntry per cell — findings for the
column's cells are added to the result, contrary to the claim that only
a log diagnostic is produced. -/
theorem C3_unknown_tag_counterexample :
    (validateDataTypes dfOneInt [("a", "date")]).passed =
      [mkPassed "Valid date value" "a" (some 0)] ∧
    (validateDataTypes dfOneInt [("a", "date")]).passed ≠ [] := by
  decide

/-- C3 (amended): for a column present in the table whose `data_types`
tag is outside {int, float, str, bool}, every non-null cell is treated
as valid: the pass emits no error entries, one passed entry per
non-null cell (the warning for an all-null column is unaffected), and
the unrecognized tag is additionally reported to the logger — a side
channel outside the ValidationResult. -/
theorem C3_unknown_tag_amended (df : DataFrame) (c t : String) (col : List Cell)
    (hcol : df.getCol c = some col)
    (ht : t ≠ "int" ∧ t ≠ "float" ∧ t ≠ "str" ∧ t ≠ "bool") :
    (validateDataTypes df [(c, t)]).errors = [] ∧
    (validateDataTypes df [(c, t)]).warnings =
      (if (dropNA col).isEmpty then
        [mkWarning "Column contains only missing values" c none none]
      else []) ∧
    (validateDataTypes df [(c, t)]).passed =
      (dropNA col).map (fun iv => mkPassed ("Valid " ++ t ++ " value") c (some iv.1)) := by
  have hcheck : ∀ v : Value, checkDataType v t = true := by
    intro v
    unfold checkDataType
    rw [if_neg ht.1, if_neg ht.2.1, if_neg ht.2.2.1, if_neg ht.2.2.2]
  simp only [validateDataTypes, catMap, typeRuleFindings, hcol, List.append_nil]
  unfold typeColFindings
  by_cases hd : (dropNA col).isEmpty
  · rw [List.isEmpty_iff] at hd
    simp [hd]
  · simp only [Bool.not_eq_true] at hd
    simp only [hd, Bool.false_eq_true, if_false]
    refine ⟨?_, by simp, ?_⟩
    · simp only [List.map_eq_nil_iff]
      exact filter_eq_nil_of _ _ (fun iv _ => by simp [hcheck iv.2])
    · rw [filter_eq_self_of _ _ (fun iv _ => hcheck iv.2)]

/-- Witness for C3 (amended) at a one-cell integer column typed with
the unrecognized tag "date". -/
theorem C3_unknown_tag_amended_witness :
    (validateDataTypes dfOneInt [("a", "date")]).errors = [] ∧
    (validateDataTypes dfOneInt [("a", "date")]).warnings =
      (if (dropNA [some (.VInt 1)]).isEmpty then
        [mkWarning "Column contains only missing values" "a" none none]
      else []) ∧
    (validateDataTypes dfOneInt [("a", "date")]).passed =
      (dropNA [some (.VInt 1)]).map
        (fun iv => mkPassed ("Valid " ++ "date" ++ " value") "a" (some iv.1)) :=
  C3_unknown_tag_amended dfOneInt "a" "date" [some (.VInt 1)] (by decide)
    ⟨by decide, by decide, by decide, by decide⟩

/-- C6: the claim fails on the code.  Within one column the missing
pass records all null-missing errors first and all empty-missing errors
after them, so for the column [ "" (row 0), null (row 1) ] the error
rows come out as [1, 0] — not in row-index order as the claim states. -/
theorem C6_ordering_counterexample :
    rowsOf (runChecks "" dfNullAfterEmpty ⟨none, none⟩).errors = [1, 0] ∧
    ¬ List.Pairwise (· ≤ ·)
        (rowsOf (runChecks "" dfNullAfterEmpty ⟨none, none⟩).errors) := by
  decide

/-- C5: a null cell yields exactly one "Missing value (null/NaN)" error
at its (column, row) in the missing-value pass, and is never also
classified empty-missing — it never additionally receives a
"Missing value (empty string)" error. -/
theorem C5_null_cell_single_error (df : DataFrame) (c : String) (col : List Cell)
    (i : Nat) (hwf : df.Wellformed) (hmem : (c, col) ∈ df.cols)
    (hnull : col[i]? = some none) :
    ((entriesFor c (detectMissingValues df).errors).filter
        (fun e => e.row == some i && e.message == "Missing value (null/NaN)")).length
      = 1 ∧
    ((entriesFor c (detectMissingValues df).errors).filter
        (fun e => e.row == some i && e.message == "Missing value (empty string)")).length
      = 0 := by
  have hilt : i < col.length := by
    rcases List.getElem?_eq_some_iff.mp hnull with ⟨hh, _⟩
    exact hh
  have hlen : col.length = df.nRows := hwf.1 (c, col) hmem
  have hne : df.isEmpty = false :=
    isEmpty_false_of_mem_pos df c col hmem hlen (by omega)
  have herr : (detectMissingValues df).errors =
      catMap (fun p => (missingColFindings df.nRows p.1 p.2).1) df.cols := by
    unfold detectMissingValues
    simp only [hne, Bool.false_eq_true, if_false]
  have hblock :=
    entriesFor_blocks (fun p => (missingColFindings df.nRows p.1 p.2).1)
      (missing_errors_column df.nRows) c col df.cols hwf.2 hmem
  have hmemi : i ∈ nullIdx col := (mem_idxWhere _ _ _).mpr ⟨none, hnull, rfl⟩
  have hnoti : i ∉ emptyIdx col := by
    unfold emptyIdx
    split
    · intro hc
      obtain ⟨x, hx, hpx⟩ := (mem_idxWhere _ _ _).mp hc
      rw [hnull] at hx
      cases hx
      simp [stripsEmpty] at hpx
    · simp
  rw [herr, hblock]
  show ((((nullIdx col).map fun j => mkError "Missing value (null/NaN)" c (some j) none) ++
      ((emptyIdx col).map fun j =>
        mkError "Missing value (empty string)" c (some j) none)).filter _).length = 1 ∧
    ((((nullIdx col).map fun j => mkError "Missing value (null/NaN)" c (some j) none) ++
      ((emptyIdx col).map fun j =>
        mkError "Missing value (empty string)" c (some j) none)).filter _).length = 0
  have hmsg1 : (("Missing value (empty string)" == "Missing value (null/NaN)") : Bool)
      = false := by decide
  have hmsg2 : (("Missing value (null/NaN)" == "Missing value (empty string)") : Bool)
      = false := by decide
  constructor
  · rw [List.filter_append, filter_map_comm, filter_map_comm,
      filter_congr_of _ (fun j => j == i) (nullIdx col)
        (fun j _ => by simp [mkError]),
      filter_beq_nodup i (nullIdx col) (idxWhere_nodup _ _) hmemi,
      filter_eq_nil_of _ (emptyIdx col) (fun j _ => by simp [mkError, hmsg1])]
    simp
  · rw [List.filter_append, filter_map_comm, filter_map_comm,
      filter_eq_nil_of _ (nullIdx col) (fun j _ => by simp [mkError, hmsg2]),
      filter_congr_of _ (fun j => j == i) (emptyIdx col)
        (fun j _ => by simp [mkError]),
      filter_eq_nil_of _ (emptyIdx col) (fun j hj => by
        have : j ≠ i := fun e => hnoti (e ▸ hj)
        simp [this])]
    simp

/-- Witness for C5 at the null cell (column "x", row 1) of the
two-row example table. -/
theorem C5_null_cell_single_error_witness :
    ((entriesFor "x" (detectMissingValues dfNullAfterEmpty).errors).filter
        (fun e => e.row == some 1 && e.message == "Missing value (null/NaN)")).length
      = 1 ∧
    ((entriesFor "x" (detectMissingValues dfNullAfterEmpty).errors).filter
        (fun e => e.row == some 1 && e.message == "Missing value (empty string)")).length
      = 0 :=
  C5_null_cell_single_error dfNullAfterEmpty "x" [some (.VStr ""), none] 1
    (by decide) (by decide) (by decide)

/-- C9: per column, the missing-value pass accounts for every row — the
aggregate passed entry carries `N = row_count − nulls − empties`, is
emitted exactly when that count is positive, and `N` (or 0 when the
entry is omitted) plus the two error counts equals the row count. -/
theorem C9_missing_pass_accounting (df : DataFrame) (c : String) (col : List Cell)
    (hwf : df.Wellformed) (hmem : (c, col) ∈ df.cols) :
    ((nullIdx col).length + (emptyIdx col).length ≤ df.nRows) ∧
    (entriesFor c (detectMissingValues df).passed =
      (if 0 < (df.nRows : Int) - (nullIdx col).length - (emptyIdx col).length then
        [mkPassed
          (toString ((df.nRows : Int) - (nullIdx col).length - (emptyIdx col).length)
            ++ " valid values") c none]
      else [])) ∧
    ((if 0 < (df.nRows : Int) - (nullIdx col).length - (emptyIdx col).length then
        (df.nRows : Int) - (nullIdx col).length - (emptyIdx col).length
      else 0)
       + (nullIdx col).length + (emptyIdx col).length = (df.nRows : Int)) := by
  have hlen : col.length = df.nRows := hwf.1 (c, col) hmem
  have hdisj : (nullIdx col).length + (idxWhere stripsEmpty col).length ≤ col.length :=
    length_idxWhereFrom_disjoint isNullCell stripsEmpty
      (fun x hx => by
        cases x
        · rfl
        · simp [isNullCell] at hx)
      col 0
  have hde : (emptyIdx col).length ≤ (idxWhere stripsEmpty col).length := by
    unfold emptyIdx
    split
    · exact le_refl _
    · simp
  have h1 : (nullIdx col).length + (emptyIdx col).length ≤ df.nRows := by omega
  refine ⟨h1, ?_, ?_⟩
  · by_cases hne : df.isEmpty = true
    · have hcolsne : df.cols ≠ [] := List.ne_nil_of_mem hmem
      have hr : df.nRows = 0 := by
        unfold DataFrame.isEmpty at hne
        simp [List.isEmpty_iff, hcolsne] at hne
        exact hne
      have hcol0 : col = [] := List.eq_nil_of_length_eq_zero (by omega)
      subst hcol0
      unfold detectMissingValues
      simp [hne, entriesFor, nullIdx, emptyIdx, idxWhere, idxWhereFrom,
        isObjectDtype, hr]
    · simp only [Bool.not_eq_true] at hne
      have hpass : (detectMissingValues df).passed =
          catMap (fun p => (missingColFindings df.nRows p.1 p.2).2) df.cols := by
        unfold detectMissingValues
        simp only [hne, Bool.false_eq_true, if_false]
      rw [hpass,
        entriesFor_blocks _ (missing_passed_column df.nRows) c col df.cols hwf.2 hmem]
      unfold missingColFindings
      simp only
  · split
    · omega
    · omega

/-- Witness for C9 at the scenario table's `name` column: 2 valid
values + 0 nulls + 1 empty = 3 rows. -/
theorem C9_missing_pass_accounting_witness :
    ((nullIdx [some (.VStr "A"), some (.VStr "B"), some (.VStr "")]).length +
        (emptyIdx [some (.VStr "A"), some (.VStr "B"), some (.VStr "")]).length ≤
        dfScenario.nRows) ∧
    (entriesFor "name" (detectMissingValues dfScenario).passed =
      (if 0 < (dfScenario.nRows : Int) -
            (nullIdx [some (.VStr "A"), some (.VStr "B"), some (.VStr "")]).length -
            (emptyIdx [some (.VStr "A"), some (.VStr "B"), some (.VStr "")]).length then
        [mkPassed
          (toString ((dfScenario.nRows : Int) -
              (nullIdx [some (.VStr "A"), some (.VStr "B"), some (.VStr "")]).length -
              (emptyIdx [some (.VStr "A"), some (.VStr "B"), some (.VStr "")]).length)
            ++ " valid values") "name" none]
      else [])) ∧
    ((if 0 < (dfScenario.nRows : Int) -
          (nullIdx [some (.VStr "A"), some (.VStr "B"), some (.VStr "")]).length -
          (emptyIdx [some (.VStr "A"), some (.VStr "B"), some (.VStr "")]).length then
        (dfScenario.nRows : Int) -
          (nullIdx [some (.VStr "A"), some (.VStr "B"), some (.VStr "")]).length -
          (emptyIdx [some (.VStr "A"), some (.VStr "B"), some (.VStr "")]).length
      else 0)
       + (nullIdx [some (.VStr "A"), some (.VStr "B"), some (.VStr "")]).length
       + (emptyIdx [some (.VStr "A"), some (.VStr "B"), some (.VStr "")]).length
       = (dfScenario.nRows : Int)) :=
  C9_missing_pass_accounting dfScenario "name"
    [some (.VStr "A"), some (.VStr "B"), some (.VStr "")] (by decide) (by decide)

/-- C6 (amended): in every result of a non-empty run, each severity
sequence is the concatenation of the three passes' contributions in the
fixed order required-columns, missing-values, types; the missing pass is
column-major over the table's columns, but within one column its errors
list all null-missing rows first and all empty-missing rows after them
(each group in increasing row order) rather than interleaving by row
index; required-column findings carry no row; and within each type rule
the error rows and the passed rows are each in increasing row order. -/
theorem C6_ordering_amended (src : String) (df : DataFrame) (rules : RuleSet)
    (h : df.isEmpty = false) :
    ((runChecks src df rules).errors =
       reqErrorsOf df rules ++ (detectMissingValues df).errors ++
         (typeResultOf df rules).errors) ∧
    ((runChecks src df rules).warnings =
       (detectMissingValues df).warnings ++ (typeResultOf df rules).warnings) ∧
    ((runChecks src df rules).passed =
       reqPassedOf df rules ++ (detectMissingValues df).passed ++
         (typeResultOf df rules).passed) ∧
    ((detectMissingValues df).errors =
       catMap (fun p =>
         ((nullIdx p.2).map fun i =>
            mkError "Missing value (null/NaN)" p.1 (some i) none) ++
           ((emptyIdx p.2).map fun i =>
             mkError "Missing value (empty string)" p.1 (some i) none)) df.cols) ∧
    (∀ p ∈ df.cols, List.Pairwise (· < ·) (nullIdx p.2) ∧
       List.Pairwise (· < ·) (emptyIdx p.2)) ∧
    (∀ e ∈ reqErrorsOf df rules, e.row = none) ∧
    (∀ e ∈ reqPassedOf df rules, e.row = none) ∧
    (∀ tr, rules.data_types = some tr → ∀ r ∈ tr,
       List.Pairwise (· < ·) (rowsOf (typeRuleFindings df r).1) ∧
       List.Pairwise (· < ·) (rowsOf (typeRuleFindings df r).2.2)) := by
  have hrc : runChecks src df rules =
      ⟨src,
       reqErrorsOf df rules ++ (detectMissingValues df).errors ++
         (typeResultOf df rules).errors,
       (detectMissingValues df).warnings ++ (typeResultOf df rules).warnings,
       reqPassedOf df rules ++ (detectMissingValues df).passed ++
         (typeResultOf df rules).passed⟩ := by
    unfold runChecks
    simp only [h, Bool.false_eq_true, if_false]
  have hmiss : (detectMissingValues df).errors =
      catMap (fun p =>
        ((nullIdx p.2).map fun i =>
           mkError "Missing value (null/NaN)" p.1 (some i) none) ++
          ((emptyIdx p.2).map fun i =>
            mkError "Missing value (empty string)" p.1 (some i) none)) df.cols := by
    unfold detectMissingValues
    simp only [h, Bool.false_eq_true, if_false]
    rfl
  refine ⟨by rw [hrc], by rw [hrc], by rw [hrc], hmiss, ?_, ?_, ?_, ?_⟩
  · intro p _
    refine ⟨idxWhereFrom_pairwise isNullCell p.2 0, ?_⟩
    unfold emptyIdx
    split
    · exact idxWhereFrom_pairwise stripsEmpty p.2 0
    · simp
  · intro e he
    rcases hrq : rules.required_columns with _ | r
    · simp [reqErrorsOf, hrq] at he
    · simp only [reqErrorsOf, hrq] at he
      unfold requiredColumnsFindings at he
      simp only [List.mem_map] at he
      obtain ⟨x, _, rfl⟩ := he
      rfl
  · intro e he
    rcases hrq : rules.required_columns with _ | r
    · simp [reqPassedOf, hrq] at he
    · simp only [reqPassedOf, hrq] at he
      unfold requiredColumnsFindings at he
      simp only [List.mem_map] at he
      obtain ⟨x, _, rfl⟩ := he
      rfl
  · intro tr _ r _
    rcases hg : df.getCol r.1 with _ | col
    · simp [typeRuleFindings, hg, rowsOf, mkError]
    · simp only [typeRuleFindings, hg]
      unfold typeColFindings
      by_cases hd : (dropNA col).isEmpty
      · simp [hd, rowsOf]
      · simp only [Bool.not_eq_true] at hd
        simp only [hd, Bool.false_eq_true, if_false]
        constructor
        · rw [rowsOf_map_of_row _ Prod.fst (fun a => rfl)]
          exact List.pairwise_map.mpr
            (List.Pairwise.sublist (List.filter_sublist _)
              (dropNAFrom_fst_pairwise col 0))
        · rw [rowsOf_map_of_row _ Prod.fst (fun a => rfl)]
          exact List.pairwise_map.mpr
            (List.Pairwise.sublist (List.filter_sublist _)
              (dropNAFrom_fst_pairwise col 0))

/-- Witness for C6 (amended) on the two-row table with both passes
configured. -/
theorem C6_ordering_amended_witness :
    ((runChecks "w" dfNullAfterEmpty rulesX).errors =
       reqErrorsOf dfNullAfterEmpty rulesX ++
         (detectMissingValues dfNullAfterEmpty).errors ++
         (typeResultOf dfNullAfterEmpty rulesX).errors) ∧
    ((runChecks "w" dfNullAfterEmpty rulesX).warnings =
       (detectMissingValues dfNullAfterEmpty).warnings ++
         (typeResultOf dfNullAfterEmpty rulesX).warnings) ∧
    ((runChecks "w" dfNullAfterEmpty rulesX).passed =
       reqPassedOf dfNullAfterEmpty rulesX ++
         (detectMissingValues dfNullAfterEmpty).passed ++
         (typeResultOf dfNullAfterEmpty rulesX).passed) ∧
    ((detectMissingValues dfNullAfterEmpty).errors =
       catMap (fun p =>
         ((nullIdx p.2).map fun i =>
            mkError "Missing value (null/NaN)" p.1 (some i) none) ++
           ((emptyIdx p.2).map fun i =>
             mkError "Missing value (empty string)" p.1 (some i) none))
         dfNullAfterEmpty.cols) ∧
    (∀ p ∈ dfNullAfterEmpty.cols, List.Pairwise (· < ·) (nullIdx p.2) ∧
       List.Pairwise (· < ·) (emptyIdx p.2)) ∧
    (∀ e ∈ reqErrorsOf dfNullAfterEmpty rulesX, e.row = none) ∧
    (∀ e ∈ reqPassedOf dfNullAfterEmpty rulesX, e.row = none) ∧
    (∀ tr, rulesX.data_types = some tr → ∀ r ∈ tr,
       List.Pairwise (· < ·) (rowsOf (typeRuleFindings dfNullAfterEmpty r).1) ∧
       List.Pairwise (· < ·) (rowsOf (typeRuleFindings dfNullAfterEmpty r).2.2)) :=
  C6_ordering_amended "w" dfNullAfterEmpty rulesX (by decide)

end DataValidation


